import Mathlib

/-!
Verification of the chunk-based PNG container core in `src/png.py`
(classes `Chunk` and `PNG`).

The embedding below is a shallow translation of the Python source:
byte strings become `List Nat` (each element a byte value), Python
slices `data[a:b]` become `(data.drop a).take (b - a)` (both clamp),
`int.from_bytes(_, 'big')` becomes `fromBytesBE`, and
`v.to_bytes(n, 'big')` becomes `toBytesBE n v`.  A Python `raise`
becomes an `Except` error; the error constructors carry the typed
error kinds named by the specification, the two untyped Python crash
paths (`AttributeError` from dereferencing `None`, `UnicodeDecodeError`
from `bytes.decode('utf-8')` on a non-UTF-8 tag) get constructors of
their own.
-/

namespace PngCore

/-- `int.from_bytes(bs, byteorder='big')`. -/
def fromBytesBE (bs : List Nat) : Nat :=
  bs.foldl (fun acc b => acc * 256 + b) 0

/-- `v.to_bytes(w, byteorder='big')` (the caller's value is assumed to fit;
`PNG.set_value_at_index` models Python's `OverflowError` separately). -/
def toBytesBE : Nat → Nat → List Nat
  | 0, _ => []
  | w + 1, v => (v / 256 ^ w) % 256 :: toBytesBE w v

/-- One bit step of the CRC-32 shift register (polynomial `0xEDB88320`). -/
def crc32Step (c : Nat) : Nat :=
  if c % 2 = 1 then Nat.xor (c / 2) 0xEDB88320 else c / 2

/-- Fold one input byte into the CRC-32 state (eight bit steps). -/
def crc32Byte (c b : Nat) : Nat :=
  (List.range 8).foldl (fun acc _ => crc32Step acc) (Nat.xor c b)

/-- `binascii.crc32`: standard CRC-32 with initial value and final xor
`0xFFFFFFFF`. -/
def crc32 (data : List Nat) : Nat :=
  Nat.xor (data.foldl crc32Byte 0xFFFFFFFF) 0xFFFFFFFF

/-- `crc32(bs).to_bytes(4, byteorder='big')`, the form both
`Chunk.calculate_crc32` and the on-wire format use. -/
def crc32Bytes (bs : List Nat) : List Nat :=
  toBytesBE 4 (crc32 bs)

/-- A UTF-8 continuation byte (`0x80`–`0xBF`). -/
def isCont (b : Nat) : Bool := 0x80 ≤ b && b ≤ 0xBF

/-- Whether a byte sequence decodes under `bytes.decode('utf-8')`
(RFC 3629: no overlong forms, no surrogates, max `U+10FFFF`).
`PNG.__split_chunks__` decodes every chunk tag for its log string, so a
tag that fails this test raises `UnicodeDecodeError` in the source. -/
def validUtf8 : List Nat → Bool
  | [] => true
  | b :: rest =>
    if b ≤ 0x7F then validUtf8 rest
    else if 0xC2 ≤ b && b ≤ 0xDF then
      match rest with
      | c1 :: r => isCont c1 && validUtf8 r
      | [] => false
    else if b = 0xE0 then
      match rest with
      | c1 :: c2 :: r => (0xA0 ≤ c1 && c1 ≤ 0xBF) && isCont c2 && validUtf8 r
      | _ => false
    else if (0xE1 ≤ b && b ≤ 0xEC) || b = 0xEE || b = 0xEF then
      match rest with
      | c1 :: c2 :: r => isCont c1 && isCont c2 && validUtf8 r
      | _ => false
    else if b = 0xED then
      match rest with
      | c1 :: c2 :: r => (0x80 ≤ c1 && c1 ≤ 0x9F) && isCont c2 && validUtf8 r
      | _ => false
    else if b = 0xF0 then
      match rest with
      | c1 :: c2 :: c3 :: r => (0x90 ≤ c1 && c1 ≤ 0xBF) && isCont c2 && isCont c3 && validUtf8 r
      | _ => false
    else if 0xF1 ≤ b && b ≤ 0xF3 then
      match rest with
      | c1 :: c2 :: c3 :: r => isCont c1 && isCont c2 && isCont c3 && validUtf8 r
      | _ => false
    else if b = 0xF4 then
      match rest with
      | c1 :: c2 :: c3 :: r => (0x80 ≤ c1 && c1 ≤ 0x8F) && isCont c2 && isCont c3 && validUtf8 r
      | _ => false
    else false

/-- `_PNG_HEADER`. -/
def pngHeader : List Nat := [0x89, 0x50, 0x4E, 0x47, 0x0D, 0x0A, 0x1A, 0x0A]

/-- `_PNG_FOOTER = b'IEND\xae\x42\x60\x82'` (tag plus CRC of the empty
IEND chunk; the 8 bytes the constructor compares the buffer's tail to). -/
def pngFooter : List Nat := [0x49, 0x45, 0x4E, 0x44, 0xAE, 0x42, 0x60, 0x82]

/-- `b'IHDR'`. -/
def tagIHDR : List Nat := [0x49, 0x48, 0x44, 0x52]
/-- `b'PLTE'`. -/
def tagPLTE : List Nat := [0x50, 0x4C, 0x54, 0x45]
/-- `b'IDAT'`. -/
def tagIDAT : List Nat := [0x49, 0x44, 0x41, 0x54]
/-- `b'IEND'`. -/
def tagIEND : List Nat := [0x49, 0x45, 0x4E, 0x44]

/-- `CRITICAL_CHUNKS`. -/
def CRITICAL_CHUNKS : List (List Nat) := [tagIHDR, tagPLTE, tagIDAT, tagIEND]

/-- `ANCILLARY_CHUNKS`: bKGD cHRM dSIG eXIF gAMA hIST iCCP iTXt pHYs sBIT
sPLT sRGB sTER tEXt tIME tRNS zTXt. -/
def ANCILLARY_CHUNKS : List (List Nat) :=
  [[0x62, 0x4B, 0x47, 0x44], [0x63, 0x48, 0x52, 0x4D], [0x64, 0x53, 0x49, 0x47],
   [0x65, 0x58, 0x49, 0x46], [0x67, 0x41, 0x4D, 0x41], [0x68, 0x49, 0x53, 0x54],
   [0x69, 0x43, 0x43, 0x50], [0x69, 0x54, 0x58, 0x74], [0x70, 0x48, 0x59, 0x73],
   [0x73, 0x42, 0x49, 0x54], [0x73, 0x50, 0x4C, 0x54], [0x73, 0x52, 0x47, 0x42],
   [0x73, 0x54, 0x45, 0x52], [0x74, 0x45, 0x58, 0x74], [0x74, 0x49, 0x4D, 0x45],
   [0x74, 0x52, 0x4E, 0x53], [0x7A, 0x54, 0x58, 0x74]]

/-- The `Chunk` class: its four instance fields.  The Python object stores
`size` as a raw 4-byte field (it is assigned, never re-derived from
`data` after construction), so the embedding keeps it as stored bytes. -/
structure Chunk where
  size : List Nat
  type : List Nat
  data : List Nat
  crc32 : List Nat
deriving DecidableEq, Repr

/-- `Chunk.__init__(init_type, init_data)`: size from `len(init_data)`,
checksum computed immediately. -/
def Chunk.new (init_type init_data : List Nat) : Chunk :=
  { size := toBytesBE 4 init_data.length
    type := init_type
    data := init_data
    crc32 := crc32Bytes (init_type ++ init_data) }

/-- `Chunk.calculate_crc32`: overwrite the stored checksum from the
current `type`/`data`. -/
def Chunk.calculate_crc32 (c : Chunk) : Chunk :=
  { c with crc32 := crc32Bytes (c.type ++ c.data) }

/-- `Chunk.int_size`. -/
def Chunk.int_size (c : Chunk) : Nat := fromBytesBE c.size

/-- `Chunk.export_chunk`: recompute the checksum, then emit
`size + type + data + crc32`.  Note the stored `size` bytes are emitted
as they are, not re-derived from the payload. -/
def Chunk.export_chunk (c : Chunk) : List Nat :=
  let c' := c.calculate_crc32
  c'.size ++ c'.type ++ c'.data ++ c'.crc32

/-- The polymorphic return shape of `PNG.get_chunk_by_type`:
`None`, a single hit, or the list of hits. -/
inductive PyFind (α : Type) where
  | nothing
  | one (x : α)
  | many (xs : List α)
deriving DecidableEq, Repr

/-- The typed failures of the core, in the specification's names, plus
the two untyped crashes the Python source can actually raise:
`attributeError` (`None`/`list` has no attribute `data`) and
`unicodeDecodeError` (a chunk tag that is not valid UTF-8 blows up in
the log-string `decode` before any tag check runs). -/
inductive Error where
  | formatError
  | unknownChunk (tag : List Nat)
  | duplicateChunk (tag : List Nat)
  | missingChunk (tag : List Nat)
  | unsupportedFeature
  | attributeError
  | unicodeDecodeError
  | indexError
  | overflowError
deriving DecidableEq, Repr

/-- The enumerate-and-filter loop of `PNG.get_chunk_by_type`: the
`(index, chunk)` pairs whose chunk type equals `chunk_type`, in
sequence order. -/
def findMatches (chunks : List Chunk) (chunk_type : List Nat) : List (Nat × Chunk) :=
  chunks.enum.filter fun p => p.2.type = chunk_type

/-- `PNG.get_chunk_by_type(chunk_type)` (the `return_chunk` value):
`None` for no hit, the chunk itself for one hit, the ordered list for
more. -/
def getChunkByType (chunks : List Chunk) (chunk_type : List Nat) : PyFind Chunk :=
  match (findMatches chunks chunk_type).map Prod.snd with
  | [] => .nothing
  | [c] => .one c
  | cs => .many cs

/-- `PNG.get_chunk_by_type(chunk_type, bool_return_index=True)`: the
`(return_index, return_chunk)` pair, each collapsed by the same
length dispatch. -/
def getChunkByTypeIndexed (chunks : List Chunk) (chunk_type : List Nat) :
    PyFind Nat × PyFind Chunk :=
  (match (findMatches chunks chunk_type).map Prod.fst with
   | [] => .nothing
   | [i] => .one i
   | is => .many is,
   getChunkByType chunks chunk_type)

/-- The `PNG` instance state after a successful `__init__`: the chunk
sequence plus the seven metadata integers decoded from the IHDR
payload. -/
structure PNG where
  chunks : List Chunk
  width : Nat
  height : Nat
  bit_depth : Nat
  color_type : Nat
  compression_method : Nat
  filter_method : Nat
  interlace_method : Nat
deriving DecidableEq, Repr

/-- Python's `x == -1` where `x` is the result of `get_chunk_by_type`:
`x` is `None`, a `Chunk` object, or a `list`, none of which ever equals
the integer `-1`, so this comparison is constantly false.  (It is the
palette-presence test of `PNG.__validate_chunks__`.) -/
def pyEqNegOne : PyFind Chunk → Bool := fun _ => false

/-- The `while` loop of `PNG.__split_chunks__`, walking the buffer after
the 8-byte signature.  `rest` is `data[i:]`; all Python slices are
relative to the cursor.  Per iteration: read 4 size bytes, 4 tag bytes
(decoded to UTF-8 for the log string — a crash point for bad tags),
reject unrecognized tags, reject a repeated non-IDAT critical tag, then
read `chunk_size` payload bytes and 4 stored checksum bytes and append
the chunk. -/
def splitChunksLoop : List Nat → List Chunk → Except Error (List Chunk)
  | [], acc => .ok acc
  | b :: rs, acc =>
    let rest := b :: rs
    let size := rest.take 4
    let chunk_size := fromBytesBE size
    let chunk_type := (rest.drop 4).take 4
    if validUtf8 chunk_type then
      if chunk_type ∉ CRITICAL_CHUNKS ∧ chunk_type ∉ ANCILLARY_CHUNKS then
        .error (.unknownChunk chunk_type)
      else if getChunkByType acc chunk_type ≠ .nothing ∧ chunk_type ∈ CRITICAL_CHUNKS ∧
          chunk_type ≠ tagIDAT then
        .error (.duplicateChunk chunk_type)
      else
        let chunk_data := (rest.drop 8).take chunk_size
        let original_crc32 := (rest.drop (8 + chunk_size)).take 4
        splitChunksLoop (rest.drop (12 + chunk_size))
          (acc ++ [{ size := size, type := chunk_type, data := chunk_data,
                     crc32 := original_crc32 }])
    else
      .error .unicodeDecodeError
termination_by rest _ => rest.length
decreasing_by
  simp only [List.length_drop]
  simp only [List.length_cons]
  omega

/-- A structurally recursive twin of `splitChunksLoop` driven by a fuel
counter, so that concrete runs of the parser reduce inside the kernel.
Every loop iteration consumes at least 12 buffer bytes, so any fuel
larger than the buffer length makes the two functions agree
(`splitChunksFuel_eq_aux`); the fuel-exhausted case is unreachable
from such a call. -/
def splitChunksFuel : Nat → List Nat → List Chunk → Except Error (List Chunk)
  | _, [], acc => .ok acc
  | 0, _ :: _, acc => .ok acc
  | fuel + 1, b :: rs, acc =>
    let rest := b :: rs
    let size := rest.take 4
    let chunk_size := fromBytesBE size
    let chunk_type := (rest.drop 4).take 4
    if validUtf8 chunk_type then
      if chunk_type ∉ CRITICAL_CHUNKS ∧ chunk_type ∉ ANCILLARY_CHUNKS then
        .error (.unknownChunk chunk_type)
      else if getChunkByType acc chunk_type ≠ .nothing ∧ chunk_type ∈ CRITICAL_CHUNKS ∧
          chunk_type ≠ tagIDAT then
        .error (.duplicateChunk chunk_type)
      else
        let chunk_data := (rest.drop 8).take chunk_size
        let original_crc32 := (rest.drop (8 + chunk_size)).take 4
        splitChunksFuel fuel (rest.drop (12 + chunk_size))
          (acc ++ [{ size := size, type := chunk_type, data := chunk_data,
                     crc32 := original_crc32 }])
    else
      .error .unicodeDecodeError

/-- `PNG.__split_chunks__(data)`: start the walk just past the magic
signature, with an empty chunk list.  Defined through the fuel-driven
form so that parsing reduces inside the kernel; `splitChunks_eq_loop`
proves it equal to the literal `while`-loop translation
`splitChunksLoop`. -/
def splitChunks (data : List Nat) : Except Error (List Chunk) :=
  splitChunksFuel (data.length + 1) (data.drop pngHeader.length) []

/-- `PNG.__validate_chunks__`: each of IHDR/IDAT/IEND must be present;
then the palette special case — whose comparison against `-1` is
constantly false in Python, so that branch can never fire (and if it
could, its message would name the stale loop variable, the IEND
chunk, not PLTE). -/
def validateChunks (png : PNG) : Except Error Unit :=
  if getChunkByType png.chunks tagIHDR = .nothing then .error (.missingChunk tagIHDR)
  else if getChunkByType png.chunks tagIDAT = .nothing then .error (.missingChunk tagIDAT)
  else if getChunkByType png.chunks tagIEND = .nothing then .error (.missingChunk tagIEND)
  else if png.color_type = 3 ∧ pyEqNegOne (getChunkByType png.chunks tagPLTE) = true then
    .error (.missingChunk tagIEND)
  else .ok ()

/-- The metadata-decoding block of `PNG.__init__`: the container state
built from the chunk list and the IHDR chunk's payload (`meta_info`),
each field read at its fixed big-endian offset. -/
def mkPNG (chunks : List Chunk) (header_chunk : Chunk) : PNG :=
  let meta_info := header_chunk.data
  { chunks := chunks
    width := fromBytesBE ((meta_info.drop 0).take 4)
    height := fromBytesBE ((meta_info.drop 4).take 4)
    bit_depth := fromBytesBE ((meta_info.drop 8).take 1)
    color_type := fromBytesBE ((meta_info.drop 9).take 1)
    compression_method := fromBytesBE ((meta_info.drop 10).take 1)
    filter_method := fromBytesBE ((meta_info.drop 11).take 1)
    interlace_method := fromBytesBE ((meta_info.drop 12).take 1) }

/-- `PNG.__init__(data)` (with `verbose=False`): signature/footer check,
chunk walk, IHDR lookup (a miss dereferences `None` → `AttributeError`),
metadata decode at the fixed big-endian offsets of the IHDR payload,
structural validation, grayscale rejection. -/
def PNG.init (data : List Nat) : Except Error PNG :=
  if (data.take pngHeader.length = pngHeader ∧
      data.drop (data.length - pngFooter.length) = pngFooter) then
    match splitChunks data with
    | .error e => .error e
    | .ok chunks =>
      match getChunkByType chunks tagIHDR with
      | .one header_chunk =>
        let png : PNG := mkPNG chunks header_chunk
        match validateChunks png with
        | .error e => .error e
        | .ok _ =>
          if png.color_type = 0 ∨ png.color_type = 4 then .error .unsupportedFeature
          else .ok png
      | _ => .error .attributeError
  else .error .formatError

/-- `PNG.set_value_at_index(chunk_index, index, new_value, num_bytes)`:
`chunks[chunk_index]` raises `IndexError` when out of range;
`new_value.to_bytes(num_bytes, 'big')` raises `OverflowError` when the
value does not fit; otherwise the payload is replaced by
`data[:index] + new_value.to_bytes(num_bytes, 'big') + data[index + num_bytes:]`
(both slices clamp — there is no window bounds check). -/
def PNG.set_value_at_index (png : PNG) (chunk_index index new_value num_bytes : Nat) :
    Except Error PNG :=
  match png.chunks[chunk_index]? with
  | none => .error .indexError
  | some c =>
    if 256 ^ num_bytes ≤ new_value then .error .overflowError
    else
      let before_current := c.data.take index
      let after_current := c.data.drop (index + num_bytes)
      .ok { png with
            chunks := png.chunks.set chunk_index
              { c with data := before_current ++ toBytesBE num_bytes new_value ++
                               after_current } }

/-- `PNG.export_image`: re-validate, then the signature followed by every
chunk's `export_chunk()` output in sequence order. -/
def PNG.export_image (png : PNG) : Except Error (List Nat) :=
  match validateChunks png with
  | .error e => .error e
  | .ok _ => .ok (pngHeader ++ (png.chunks.map Chunk.export_chunk).flatten)

deriving instance DecidableEq for Except

/-- IHDR payload of a 1×1, 8-bit, truecolor (color type 2) image. -/
def ihdrPayload : List Nat := [0, 0, 0, 1, 0, 0, 0, 1, 8, 2, 0, 0, 0]

/-- The same IHDR payload with color type 3 (palette-based). -/
def ihdrPayload3 : List Nat := [0, 0, 0, 1, 0, 0, 0, 1, 8, 3, 0, 0, 0]

/-- A minimal well-formed buffer: signature, IHDR (color type 2), one
empty IDAT, IEND — every stored checksum is the true CRC-32 of
tag ++ payload. -/
def minBuf : List Nat :=
  pngHeader ++ [0, 0, 0, 13] ++ tagIHDR ++ ihdrPayload ++ [144, 119, 83, 222] ++
  [0, 0, 0, 0] ++ tagIDAT ++ [53, 175, 6, 30] ++
  [0, 0, 0, 0] ++ tagIEND ++ [0xAE, 0x42, 0x60, 0x82]

/-- The IHDR chunk `minBuf` parses to. -/
def ihdrChunkMin : Chunk :=
  { size := [0, 0, 0, 13], type := tagIHDR, data := ihdrPayload,
    crc32 := [144, 119, 83, 222] }

/-- The IDAT chunk `minBuf` parses to. -/
def idatChunkMin : Chunk :=
  { size := [0, 0, 0, 0], type := tagIDAT, data := [], crc32 := [53, 175, 6, 30] }

/-- The IEND chunk `minBuf` parses to. -/
def iendChunkMin : Chunk :=
  { size := [0, 0, 0, 0], type := tagIEND, data := [], crc32 := [0xAE, 0x42, 0x60, 0x82] }

/-- The chunk sequence `minBuf` parses to. -/
def minChunks : List Chunk := [ihdrChunkMin, idatChunkMin, iendChunkMin]

/-- The container `minBuf` parses to. -/
def minPng : PNG :=
  { chunks := minChunks
    width := 1, height := 1, bit_depth := 8, color_type := 2
    compression_method := 0, filter_method := 0, interlace_method := 0 }

/-- `minBuf` with the IHDR chunk's stored checksum replaced by zeros
(parsing never checks it). -/
def cexBuf1 : List Nat :=
  pngHeader ++ [0, 0, 0, 13] ++ tagIHDR ++ ihdrPayload ++ [0, 0, 0, 0] ++
  [0, 0, 0, 0] ++ tagIDAT ++ [53, 175, 6, 30] ++
  [0, 0, 0, 0] ++ tagIEND ++ [0xAE, 0x42, 0x60, 0x82]

/-- A buffer whose IHDR declares palette-based color (type 3) and which
contains no PLTE chunk. -/
def cexBuf3 : List Nat :=
  pngHeader ++ [0, 0, 0, 13] ++ tagIHDR ++ ihdrPayload3 ++ [40, 203, 52, 187] ++
  [0, 0, 0, 0] ++ tagIDAT ++ [53, 175, 6, 30] ++
  [0, 0, 0, 0] ++ tagIEND ++ [0xAE, 0x42, 0x60, 0x82]

/-- A buffer with valid signature and terminator, a clean chunk walk
(IDAT then IEND), and no IHDR chunk. -/
def cexBuf4 : List Nat :=
  pngHeader ++ [0, 0, 0, 0] ++ tagIDAT ++ [53, 175, 6, 30] ++
  [0, 0, 0, 0] ++ tagIEND ++ [0xAE, 0x42, 0x60, 0x82]

/-- `minBuf` with the final IEND record declaring payload length 10: the
walk clamps the payload slice to the 4 remaining bytes, so the parsed
chunk's stored `size` disagrees with its actual payload length. -/
def cexBuf5 : List Nat :=
  pngHeader ++ [0, 0, 0, 13] ++ tagIHDR ++ ihdrPayload ++ [144, 119, 83, 222] ++
  [0, 0, 0, 0] ++ tagIDAT ++ [53, 175, 6, 30] ++
  [0, 0, 0, 10] ++ tagIEND ++ [0xAE, 0x42, 0x60, 0x82]

/-- A chunk tag of four `0x80` bytes: recognized by neither tag set, and
not valid UTF-8. -/
def cexTag8 : List Nat := [0x80, 0x80, 0x80, 0x80]

/-- A buffer with valid signature and terminator whose first chunk
carries the non-UTF-8 unknown tag `cexTag8`. -/
def cexBuf8 : List Nat :=
  pngHeader ++ [0, 0, 0, 0] ++ cexTag8 ++ [0, 0, 0, 0] ++
  [0, 0, 0, 0] ++ tagIEND ++ [0xAE, 0x42, 0x60, 0x82]

end PngCore

namespace PngCore

/-- With fuel exceeding the buffer length the fuel-driven twin computes
exactly the `while` loop of `PNG.__split_chunks__`. -/
theorem splitChunksFuel_eq_aux :
    ∀ (fuel : Nat) (rest : List Nat) (acc : List Chunk), rest.length < fuel →
      splitChunksFuel fuel rest acc = splitChunksLoop rest acc := by
  intro fuel
  induction fuel with
  | zero => intro rest acc h; exact absurd h (Nat.not_lt_zero _)
  | succ f ih =>
    intro rest acc h
    match rest with
    | [] => simp [splitChunksFuel, splitChunksLoop]
    | b :: rs =>
      simp only [splitChunksFuel, splitChunksLoop]
      split_ifs with h1 h2 h3
      · rfl
      · rfl
      · apply ih
        simp only [List.length_drop, List.length_cons]
        simp only [List.length_cons] at h
        omega
      · rfl

/-- `splitChunks` computes exactly the literal `while`-loop translation:
the fuel in its definition is always sufficient. -/
theorem splitChunks_eq_loop (data : List Nat) :
    splitChunks data = splitChunksLoop (data.drop pngHeader.length) [] := by
  unfold splitChunks
  refine splitChunksFuel_eq_aux _ _ _ ?_
  simp only [List.length_drop]
  omega

/-- `toBytesBE` always produces exactly the requested number of bytes. -/
theorem toBytesBE_length (w : Nat) : ∀ v, (toBytesBE w v).length = w := by
  induction w with
  | zero => intro v; rfl
  | succ n ih => intro v; simp [toBytesBE, ih]

/-- `crc32Bytes` is always 4 bytes. -/
theorem crc32Bytes_length (bs : List Nat) : (crc32Bytes bs).length = 4 :=
  toBytesBE_length 4 _

/-- `export_chunk` written out: stored size and tag and payload, then the
freshly recomputed checksum. -/
theorem Chunk.export_chunk_eq (c : Chunk) :
    c.export_chunk = c.size ++ c.type ++ c.data ++ crc32Bytes (c.type ++ c.data) := rfl

/-- The four slices one loop iteration reads, followed by the rest of the
buffer, reassemble the buffer. -/
theorem chunk_slices_append (rest : List Nat) (cs : Nat) :
    rest.take 4 ++ (rest.drop 4).take 4 ++ (rest.drop 8).take cs ++
      (rest.drop (8 + cs)).take 4 ++ rest.drop (12 + cs) = rest := by
  have e1 : rest.take 8 = rest.take 4 ++ (rest.drop 4).take 4 := by
    rw [show (8 : Nat) = 4 + 4 from rfl, List.take_add]
  have e2 : rest.take (8 + cs) = rest.take 8 ++ (rest.drop 8).take cs :=
    List.take_add ..
  have e3 : rest.take (12 + cs) = rest.take (8 + cs) ++ (rest.drop (8 + cs)).take 4 := by
    rw [show 12 + cs = 8 + cs + 4 by omega, List.take_add]
  calc rest.take 4 ++ (rest.drop 4).take 4 ++ (rest.drop 8).take cs ++
        (rest.drop (8 + cs)).take 4 ++ rest.drop (12 + cs)
      = rest.take (12 + cs) ++ rest.drop (12 + cs) := by rw [e3, e2, e1]
    _ = rest := List.take_append_drop ..

/-- When the walk succeeds it returns the accumulator extended by the
newly parsed chunks, and — provided every parsed chunk's stored checksum
already equals the CRC-32 of its tag and payload — the concatenation of
those chunks' `export_chunk()` records is the walked buffer itself. -/
theorem splitChunksFuel_ok_reconstruct :
    ∀ (fuel : Nat) (rest : List Nat) (acc res : List Chunk), rest.length < fuel →
      splitChunksFuel fuel rest acc = .ok res →
      ∃ tail, res = acc ++ tail ∧
        ((∀ c ∈ tail, c.crc32 = crc32Bytes (c.type ++ c.data)) →
          (tail.map Chunk.export_chunk).flatten = rest) := by
  intro fuel
  induction fuel with
  | zero => intro rest acc res h; exact absurd h (Nat.not_lt_zero _)
  | succ f ih =>
    intro rest acc res hlen h
    match rest with
    | [] =>
      simp only [splitChunksFuel, Except.ok.injEq] at h
      exact ⟨[], by simp [h], fun _ => by simp⟩
    | b :: rs =>
      simp only [splitChunksFuel] at h
      split_ifs at h with h1 h2 h3
      · have hlt : ((b :: rs).drop (12 + fromBytesBE ((b :: rs).take 4))).length < f := by
          simp only [List.length_drop, List.length_cons]
          simp only [List.length_cons] at hlen
          omega
        obtain ⟨tail', htail', hflat⟩ := ih _ _ _ hlt h
        refine ⟨_ :: tail', by rw [htail', List.append_assoc, List.singleton_append], ?_⟩
        intro hcrc
        have hch := hcrc _ (List.mem_cons_self _ _)
        have htl := hflat fun c hc => hcrc c (List.mem_cons_of_mem _ hc)
        simp only [List.map_cons, List.flatten_cons, htl, Chunk.export_chunk_eq]
        simp only at hch
        rw [← hch]
        exact chunk_slices_append (b :: rs) (fromBytesBE ((b :: rs).take 4))

/-- Inversion of a successful `PNG.__init__`: the signature check passed,
the chunk walk produced exactly the stored chunk list, validation
succeeded on the resulting state, and that state is the metadata decode
of the unique IHDR hit. -/
theorem init_ok_inv (b : List Nat) (png : PNG) (h : PNG.init b = .ok png) :
    b.take pngHeader.length = pngHeader ∧
    splitChunks b = .ok png.chunks ∧
    validateChunks png = .ok () ∧
    ∃ header_chunk, getChunkByType png.chunks tagIHDR = .one header_chunk ∧
      png = mkPNG png.chunks header_chunk := by
  unfold PNG.init at h
  split_ifs at h with hsig
  obtain ⟨hHead, hFoot⟩ := hsig
  cases hsplit : splitChunks b with
  | error e => rw [hsplit] at h; simp at h
  | ok chunks =>
    rw [hsplit] at h
    dsimp only at h
    cases hget : getChunkByType chunks tagIHDR with
    | nothing => rw [hget] at h; simp at h
    | many cs => rw [hget] at h; simp at h
    | one header_chunk =>
      rw [hget] at h
      dsimp only at h
      cases hval : validateChunks (mkPNG chunks header_chunk) with
      | error e => rw [hval] at h; simp at h
      | ok u =>
        rw [hval] at h
        dsimp only at h
        split_ifs at h with hgray
        simp only [Except.ok.injEq] at h
        subst h
        cases u
        exact ⟨hHead, rfl, hval, header_chunk, hget, rfl⟩

/-- C1 (corrected): a successfully parsed, unmutated container exports
byte-for-byte to its source buffer, provided every parsed chunk's stored
checksum field equals the CRC-32 of its tag and payload (the checksum is
the one record field parsing keeps but export recomputes; see
`C1_counterexample` for why the proviso is necessary). -/
theorem C1_round_trip (b : List Nat) (png : PNG)
    (hparse : PNG.init b = .ok png)
    (hcrc : ∀ c ∈ png.chunks, c.crc32 = crc32Bytes (c.type ++ c.data)) :
    PNG.export_image png = .ok b := by
  obtain ⟨hHead, hsplit, hval, -⟩ := init_ok_inv b png hparse
  unfold PNG.export_image
  rw [hval]
  dsimp only
  unfold splitChunks at hsplit
  obtain ⟨tail, htail, hflat⟩ :=
    splitChunksFuel_ok_reconstruct (b.length + 1) (b.drop pngHeader.length) [] png.chunks
      (by simp only [List.length_drop]; omega) hsplit
  rw [List.nil_append] at htail
  rw [← htail] at hflat
  rw [hflat hcrc]
  nth_rewrite 1 [← hHead]
  rw [List.take_append_drop]

set_option maxRecDepth 8000 in
/-- Witness for C1: the minimal well-formed buffer `minBuf` (whose stored
checksums are all correct) parses to `minPng` and exports back to
`minBuf` exactly. -/
theorem C1_round_trip_witness : PNG.export_image minPng = .ok minBuf :=
  C1_round_trip minBuf minPng (by decide) (by decide)

set_option maxRecDepth 8000 in
/-- Counterexample to C1 as stated: `cexBuf1` differs from `minBuf` only
in the IHDR chunk's stored checksum (zeros, not the true CRC-32).  It
parses without any error — parsing never verifies checksums — yet
exporting the freshly parsed container does not reproduce the buffer,
because `export_chunk` recomputes the checksum. -/
theorem C1_counterexample :
    (PNG.init cexBuf1).toOption.isSome = true ∧
    (PNG.init cexBuf1).toOption.map PNG.export_image ≠ some (.ok cexBuf1) := by
  constructor
  · decide
  · decide

/-- C7 (confirmed): a buffer that does not begin with the 8-byte magic
signature or does not end with the 8-byte terminator pattern makes the
constructor fail with `formatError` (and, the return type being `Except`,
no container value is produced on this or any other error path). -/
theorem C7_format_error (data : List Nat)
    (h : data.take pngHeader.length ≠ pngHeader ∨
         data.drop (data.length - pngFooter.length) ≠ pngFooter) :
    PNG.init data = .error .formatError := by
  unfold PNG.init
  rw [if_neg]
  rintro ⟨h1, h2⟩
  rcases h with h | h
  exacts [h h1, h h2]

/-- Witness for C7: the empty buffer fails the signature check and is
rejected with `formatError`. -/
theorem C7_witness : PNG.init [] = .error .formatError :=
  C7_format_error [] (Or.inl (by decide))

/-- C9 (confirmed): for any buffer that parses successfully, the seven
metadata fields are the big-endian decodings of the IHDR payload at the
fixed offsets 0–3, 4–7, 8, 9, 10, 11, 12. -/
theorem C9_metadata (b : List Nat) (png : PNG) (c : Chunk)
    (hparse : PNG.init b = .ok png)
    (hhdr : getChunkByType png.chunks tagIHDR = .one c) :
    png.width = fromBytesBE ((c.data.drop 0).take 4) ∧
    png.height = fromBytesBE ((c.data.drop 4).take 4) ∧
    png.bit_depth = fromBytesBE ((c.data.drop 8).take 1) ∧
    png.color_type = fromBytesBE ((c.data.drop 9).take 1) ∧
    png.compression_method = fromBytesBE ((c.data.drop 10).take 1) ∧
    png.filter_method = fromBytesBE ((c.data.drop 11).take 1) ∧
    png.interlace_method = fromBytesBE ((c.data.drop 12).take 1) := by
  obtain ⟨-, -, -, header_chunk, hget, hpng⟩ := init_ok_inv b png hparse
  rw [hget] at hhdr
  injection hhdr with heq
  subst heq
  rw [hpng]
  exact ⟨rfl, rfl, rfl, rfl, rfl, rfl, rfl⟩

set_option maxRecDepth 8000 in
/-- Witness for C9: on `minBuf` the decoded metadata of `minPng` agrees
with the fixed-offset reads of the parsed IHDR chunk's payload. -/
theorem C9_witness :
    minPng.width = fromBytesBE ((ihdrChunkMin.data.drop 0).take 4) ∧
    minPng.height = fromBytesBE ((ihdrChunkMin.data.drop 4).take 4) ∧
    minPng.bit_depth = fromBytesBE ((ihdrChunkMin.data.drop 8).take 1) ∧
    minPng.color_type = fromBytesBE ((ihdrChunkMin.data.drop 9).take 1) ∧
    minPng.compression_method = fromBytesBE ((ihdrChunkMin.data.drop 10).take 1) ∧
    minPng.filter_method = fromBytesBE ((ihdrChunkMin.data.drop 11).take 1) ∧
    minPng.interlace_method = fromBytesBE ((ihdrChunkMin.data.drop 12).take 1) :=
  C9_metadata minBuf minPng ihdrChunkMin (by decide) (by decide)

set_option maxRecDepth 8000 in
/-- C3 (code bug): `cexBuf3` declares palette-based color (type 3) and has
no PLTE chunk, yet parsing succeeds — the source's palette check compares
the lookup result against `-1`, which a `None`/`Chunk`/`list` value never
equals, so the `MissingChunkError` branch can never fire; the same dead
test sits in the validation run before export. -/
theorem C3_palette_check_never_fires :
    (PNG.init cexBuf3).toOption.map
      (fun p => (p.color_type, getChunkByType p.chunks tagPLTE)) =
      some (3, .nothing) ∧
    (PNG.init cexBuf3).toOption.map validateChunks = some (.ok ()) := by
  constructor
  · decide
  · decide

set_option maxRecDepth 8000 in
/-- C4 (code bug): `cexBuf4` passes the signature/terminator check and its
chunk walk completes cleanly (IDAT, IEND), but it has no IHDR chunk;
`__init__` then dereferences the `None` returned by the lookup
(`header_chunk.data`) and dies with an `AttributeError` — the typed
missing-chunk check in `__validate_chunks__` sits after the metadata
decode and is never reached. -/
theorem C4_missing_header_crash :
    (splitChunks cexBuf4).toOption.isSome = true ∧
    PNG.init cexBuf4 = .error .attributeError := by
  constructor
  · decide
  · decide

/-- C5 (corrected): `export_chunk` emits the stored 4-byte `size` field as
it is (for a chunk built by the constructor this is the big-endian length
of the payload), then the tag, the payload, and the checksum recomputed at
encode time from the current tag and payload; the trailing 4 bytes of the
record always equal the CRC-32 of tag ++ payload. -/
theorem C5_encode_layout (c : Chunk) :
    c.export_chunk = c.size ++ c.type ++ c.data ++ crc32Bytes (c.type ++ c.data) ∧
    (∀ t d, (Chunk.new t d).export_chunk =
      toBytesBE 4 d.length ++ t ++ d ++ crc32Bytes (t ++ d)) ∧
    c.export_chunk.drop (c.export_chunk.length - 4) = crc32Bytes (c.type ++ c.data) := by
  refine ⟨rfl, fun t d => rfl, ?_⟩
  rw [Chunk.export_chunk_eq, List.length_append, crc32Bytes_length,
    Nat.add_sub_cancel, List.drop_left]

set_option maxRecDepth 8000 in
/-- Counterexample to C5 as stated: `cexBuf5` parses successfully although
its IEND record declares payload length 10 and only 4 bytes remain; the
parsed chunk stores the declared length bytes but a 4-byte payload, and
`export_chunk` emits the stored length — not the 4-byte big-endian length
of the payload. -/
theorem C5_counterexample :
    (PNG.init cexBuf5).toOption.map
      (fun p => p.chunks.all fun c =>
        decide (c.export_chunk =
          toBytesBE 4 c.data.length ++ c.type ++ c.data ++
            crc32Bytes (c.type ++ c.data))) = some false := by decide

/-- C6 (confirmed): the lookup collapses by match count — empty result for
zero hits, the single chunk (with its sequence index when requested) for
one hit, and the full in-order list of hits (with their indices) for two
or more; the chunk-only call agrees with the second component of the pair
variant.  `findMatches` is the enumerate-and-filter loop of the source,
so its result is in sequence order by construction. -/
theorem C6_lookup_arity (chunks : List Chunk) (t : List Nat) :
    (findMatches chunks t = [] →
      getChunkByTypeIndexed chunks t = (.nothing, .nothing)) ∧
    (∀ i c, findMatches chunks t = [(i, c)] →
      getChunkByTypeIndexed chunks t = (.one i, .one c)) ∧
    (2 ≤ (findMatches chunks t).length →
      getChunkByTypeIndexed chunks t =
        (.many ((findMatches chunks t).map Prod.fst),
         .many ((findMatches chunks t).map Prod.snd))) ∧
    getChunkByType chunks t = (getChunkByTypeIndexed chunks t).2 := by
  refine ⟨?_, ?_, ?_, rfl⟩
  · intro h
    simp [getChunkByTypeIndexed, getChunkByType, h]
  · intro i c h
    simp [getChunkByTypeIndexed, getChunkByType, h]
  · intro h
    match hm : findMatches chunks t with
    | [] => rw [hm] at h; simp at h
    | [p] => rw [hm] at h; simp at h
    | p :: q :: rest =>
      simp [getChunkByTypeIndexed, getChunkByType, hm]

/-- Witness for C6: in `minChunks` the tag IDAT occurs exactly once, at
sequence index 1, and the indexed lookup returns that single pair. -/
theorem C6_witness :
    getChunkByTypeIndexed minChunks tagIDAT = (.one 1, .one idatChunkMin) :=
  (C6_lookup_arity minChunks tagIDAT).2.1 1 idatChunkMin (by decide)

/-- C2 (corrected): a `set_value_at_index` call whose `index + num_bytes`
window reaches beyond the target chunk's payload does NOT fail — Python
slices clamp, so the payload is silently replaced by
`data[:index] ++ big-endian bytes ++ data[index + num_bytes:]` (possibly
changing its length); chunk metadata other than `data`, every other
chunk, and all container metadata are untouched. -/
theorem C2_no_bounds_check (png : PNG) (i o v w : Nat) (c : Chunk)
    (hc : png.chunks[i]? = some c) (hv : v < 256 ^ w)
    (_hw : c.data.length < o + w) :
    PNG.set_value_at_index png i o v w =
      .ok { png with
            chunks := png.chunks.set i
              ({ c with
                 data := c.data.take o ++ toBytesBE w v ++ c.data.drop (o + w) }) } := by
  unfold PNG.set_value_at_index
  rw [hc]
  dsimp only
  rw [if_neg (by omega)]

set_option maxRecDepth 8000 in
/-- Witness for C2's amended statement: on the parsed `minPng`, writing
one byte at offset 2 of the empty IDAT payload (window 2+1 > 0) succeeds
and produces the clamped splice `[] ++ [7] ++ []`. -/
theorem C2_no_bounds_check_witness :
    PNG.set_value_at_index minPng 1 2 7 1 =
      .ok { minPng with
            chunks := minPng.chunks.set 1
              ({ idatChunkMin with
                 data := idatChunkMin.data.take 2 ++ toBytesBE 1 7 ++
                         idatChunkMin.data.drop (2 + 1) }) } :=
  C2_no_bounds_check minPng 1 2 7 1 idatChunkMin (by decide) (by decide) (by decide)

set_option maxRecDepth 8000 in
/-- Counterexample to C2 as stated: on the freshly parsed `minPng`, the
out-of-window call (IDAT payload is empty, window 0+1 exceeds it) raises
nothing and returns a container whose IDAT payload became `[5]` — not a
`BoundsError`, and the container is changed. -/
theorem C2_counterexample :
    PNG.init minBuf = .ok minPng ∧
    PNG.set_value_at_index minPng 1 0 5 1 =
      .ok { minPng with
            chunks := minPng.chunks.set 1 ({ idatChunkMin with data := [5] }) } ∧
    ({ minPng with
       chunks := minPng.chunks.set 1 ({ idatChunkMin with data := [5] }) } : PNG) ≠
      minPng := by
  refine ⟨by decide, by decide, by decide⟩

/-- C10 (confirmed): an in-bounds `set_value_at_index` (window inside the
payload, value fitting in `num_bytes` bytes) succeeds and: preserves the
chunk count; on the target chunk preserves `type`, stored `size`, and
payload length, writes exactly the big-endian encoding into the window,
and leaves every byte outside the window unchanged; leaves every other
chunk and all seven container metadata fields unchanged. -/
theorem C10_set_value_frame (png : PNG) (i o v w : Nat) (c : Chunk)
    (hc : png.chunks[i]? = some c) (hbound : o + w ≤ c.data.length)
    (hv : v < 256 ^ w) :
    ∃ png', PNG.set_value_at_index png i o v w = .ok png' ∧
      png'.chunks.length = png.chunks.length ∧
      (∃ c', png'.chunks[i]? = some c' ∧
        c'.type = c.type ∧ c'.size = c.size ∧
        c'.data.length = c.data.length ∧
        (c'.data.drop o).take w = toBytesBE w v ∧
        (∀ j, j < o ∨ o + w ≤ j → c'.data[j]? = c.data[j]?)) ∧
      (∀ j, j ≠ i → png'.chunks[j]? = png.chunks[j]?) ∧
      png'.width = png.width ∧ png'.height = png.height ∧
      png'.bit_depth = png.bit_depth ∧ png'.color_type = png.color_type ∧
      png'.compression_method = png.compression_method ∧
      png'.filter_method = png.filter_method ∧
      png'.interlace_method = png.interlace_method := by
  have hlt : i < png.chunks.length := by
    by_contra hno
    rw [List.getElem?_eq_none (by omega)] at hc
    cases hc
  have ho : o ≤ c.data.length := by omega
  have htake : (c.data.take o).length = o := by
    simp only [List.length_take]
    omega
  have htb : (toBytesBE w v).length = w := toBytesBE_length w v
  refine ⟨{ png with
            chunks := png.chunks.set i
              ({ c with
                 data := c.data.take o ++ toBytesBE w v ++ c.data.drop (o + w) }) },
    ?_, ?_,
    ⟨{ c with data := c.data.take o ++ toBytesBE w v ++ c.data.drop (o + w) },
      ?_, rfl, rfl, ?_, ?_, ?_⟩,
    ?_, rfl, rfl, rfl, rfl, rfl, rfl, rfl⟩
  · unfold PNG.set_value_at_index
    rw [hc]
    dsimp only
    rw [if_neg (by omega)]
  · exact List.length_set ..
  · exact List.getElem?_set_eq_of_lt _ hlt
  · dsimp only
    simp only [List.length_append, List.length_take, List.length_drop, htb]
    omega
  · dsimp only
    rw [List.append_assoc, List.drop_left' htake, List.take_left' htb]
  · intro j hj
    dsimp only
    rcases hj with hj | hj
    · rw [List.getElem?_append_left, List.getElem?_append_left, List.getElem?_take,
        if_pos hj]
      · rw [htake]
        omega
      · simp only [List.length_append, htake, htb]
        omega
    · rw [List.getElem?_append_right, List.getElem?_drop]
      · congr 1
        simp only [List.length_append, htake, htb]
        omega
      · simp only [List.length_append, htake, htb]
        omega
  · intro j hj
    exact List.getElem?_set_ne (fun he => hj he.symm)

set_option maxRecDepth 8000 in
/-- Witness for C10: on the parsed `minPng`, writing value 7 into one
byte at offset 9 of the 13-byte IHDR payload succeeds with all the frame
conditions. -/
theorem C10_set_value_frame_witness :
    ∃ png', PNG.set_value_at_index minPng 0 9 7 1 = .ok png' ∧
      png'.chunks.length = minPng.chunks.length ∧
      (∃ c', png'.chunks[0]? = some c' ∧
        c'.type = ihdrChunkMin.type ∧ c'.size = ihdrChunkMin.size ∧
        c'.data.length = ihdrChunkMin.data.length ∧
        (c'.data.drop 9).take 1 = toBytesBE 1 7 ∧
        (∀ j, j < 9 ∨ 9 + 1 ≤ j → c'.data[j]? = ihdrChunkMin.data[j]?)) ∧
      (∀ j, j ≠ 0 → png'.chunks[j]? = minPng.chunks[j]?) ∧
      png'.width = minPng.width ∧ png'.height = minPng.height ∧
      png'.bit_depth = minPng.bit_depth ∧ png'.color_type = minPng.color_type ∧
      png'.compression_method = minPng.compression_method ∧
      png'.filter_method = minPng.filter_method ∧
      png'.interlace_method = minPng.interlace_method :=
  C10_set_value_frame minPng 0 9 7 1 ihdrChunkMin (by decide) (by decide) (by decide)

/-- C8 (corrected): one iteration of the split walk on a nonempty buffer
`b :: rs` with tag `ct` and declared size `cs` behaves as follows: a tag
that is not valid UTF-8 crashes the iteration with a Unicode decode
error (raised by the log-string `decode` that runs before any tag
check); a valid-UTF-8 tag in neither the critical nor the ancillary set
fails with `unknownChunk`; a critical non-IDAT tag already present among
the parsed chunks fails with `duplicateChunk`; and a tag equal to IDAT
or in the ancillary set never errors at this step — the walk appends the
chunk and continues, however many occurrences came before. -/
theorem C8_walk_step (fuel b : Nat) (rs : List Nat) (acc : List Chunk)
    (ct : List Nat) (cs : Nat)
    (hct : ct = ((b :: rs).drop 4).take 4)
    (hcs : cs = fromBytesBE ((b :: rs).take 4)) :
    (validUtf8 ct = false →
      splitChunksFuel (fuel + 1) (b :: rs) acc = .error .unicodeDecodeError) ∧
    (validUtf8 ct = true → ct ∉ CRITICAL_CHUNKS → ct ∉ ANCILLARY_CHUNKS →
      splitChunksFuel (fuel + 1) (b :: rs) acc = .error (.unknownChunk ct)) ∧
    (ct ∈ CRITICAL_CHUNKS → ct ≠ tagIDAT → getChunkByType acc ct ≠ .nothing →
      splitChunksFuel (fuel + 1) (b :: rs) acc = .error (.duplicateChunk ct)) ∧
    ((ct = tagIDAT ∨ ct ∈ ANCILLARY_CHUNKS) →
      splitChunksFuel (fuel + 1) (b :: rs) acc =
        splitChunksFuel fuel ((b :: rs).drop (12 + cs))
          (acc ++ [{ size := (b :: rs).take 4, type := ct,
                     data := ((b :: rs).drop 8).take cs,
                     crc32 := ((b :: rs).drop (8 + cs)).take 4 }])) := by
  have hcrit : ∀ t ∈ CRITICAL_CHUNKS, validUtf8 t = true := by decide
  have hanc : ∀ t ∈ ANCILLARY_CHUNKS, validUtf8 t = true ∧ t ∉ CRITICAL_CHUNKS := by
    decide
  refine ⟨?_, ?_, ?_, ?_⟩
  · intro hv
    simp only [splitChunksFuel]
    rw [← hct]
    rw [if_neg (by simp [hv])]
  · intro hv hc ha
    simp only [splitChunksFuel]
    rw [← hct]
    rw [if_pos hv, if_pos ⟨hc, ha⟩]
  · intro hmem hne hget
    simp only [splitChunksFuel]
    rw [← hct]
    rw [if_pos (hcrit ct hmem), if_neg (fun hu => hu.1 hmem), if_pos ⟨hget, hmem, hne⟩]
  · intro hrep
    have hv : validUtf8 ct = true := by
      rcases hrep with h | h
      · rw [h]; decide
      · exact (hanc ct h).1
    have hnu : ¬(ct ∉ CRITICAL_CHUNKS ∧ ct ∉ ANCILLARY_CHUNKS) := by
      rcases hrep with h | h
      · exact fun hu => hu.1 (by rw [h]; decide)
      · exact fun hu => hu.2 h
    have hnd : ¬(getChunkByType acc ct ≠ .nothing ∧ ct ∈ CRITICAL_CHUNKS ∧
        ct ≠ tagIDAT) := by
      rcases hrep with h | h
      · exact fun hd => hd.2.2 h
      · exact fun hd => (hanc ct h).2 hd.2.1
    simp only [splitChunksFuel]
    rw [← hct]
    rw [if_pos hv, if_neg hnu, if_neg hnd, ← hcs]

/-- Witness for C8: one walk step on a record with the unrecognized (but
valid-UTF-8, ASCII) tag `[65, 66, 67, 68]` fails with `unknownChunk` of
that tag. -/
theorem C8_walk_step_witness :
    splitChunksFuel 6 [0, 0, 0, 0, 65, 66, 67, 68] [] =
      .error (.unknownChunk [65, 66, 67, 68]) :=
  ((C8_walk_step 5 0 [0, 0, 0, 65, 66, 67, 68] [] [65, 66, 67, 68] 0
    (by decide) (by decide)).2.1) (by decide) (by decide) (by decide)

set_option maxRecDepth 8000 in
/-- Counterexample to C8 as stated: `cexBuf8` carries the unknown tag
`[0x80, 0x80, 0x80, 0x80]`, which is in neither tag set — yet parsing
fails with the Unicode decode error from the tag's log-string `decode`
(which runs before the tag check), not with `unknownChunk`. -/
theorem C8_counterexample :
    PNG.init cexBuf8 = .error .unicodeDecodeError ∧
    cexTag8 ∉ CRITICAL_CHUNKS ∧ cexTag8 ∉ ANCILLARY_CHUNKS ∧
    (match PNG.init cexBuf8 with
     | .error (.unknownChunk _) => true
     | _ => false) = false := by
  refine ⟨by decide, by decide, by decide, by decide⟩

end PngCore
